import Mathlib

/-!
Verification of the session-transport registry and admission protocol of
`src/http-server.ts` (an Express HTTP shim for a streamable MCP transport).

The embedding mirrors the handlers registered in `setupHttpServer`:

* `transports` — the in-memory registry object `{ [sessionId: string]: Transport }`,
  modelled as an association list `Registry := List (String × TransportId)` with
  JS-object semantics (`rget` = property lookup, `rput` = property assignment,
  `rdel` = `delete`).
* `handlePost` — the `app.post('/mcp')` handler.  Its branch conditions use JS
  truthiness exactly as the source does: `sessionId && transports[sessionId]`
  (a defined, non-empty header string whose lookup succeeds) and
  `!sessionId && isInitializeRequest(req.body)` (header `undefined` or `""`).
  `isInitializeRequest` is an external SDK predicate; it enters the model only
  as the boolean `isInit` computed from the request body.
* `onSessionInitialized` — the `onsessioninitialized` callback installed on a
  freshly created transport: the SDK records the generated id on the transport
  and the callback body stores the transport in the registry under that id.
* `onClose` — the `transport.onclose` handler:
  `if (transport.sessionId) { delete transports[transport.sessionId] }`.
* `handleSessionRequest` — the shared GET/DELETE handler:
  `if (!sessionId || !transports[sessionId]) { 400 } else { delegate }`.
* `handleHealth` — the `app.get('/health')` handler.

Asynchronous interleaving of creation, confirmation and closure is modelled by
an explicit event trace (`Event`, `step`, `run`): the POST handler creates a
transport whose id is confirmed by a later `confirm` event, matching the
two-phase registration in the source.
-/

abbrev TransportId := Nat

/-- The registry object `transports : { [sessionId: string]: Transport }`,
as an association list from session id to the transport stored under it. -/
abbrev Registry := List (String × TransportId)

/-- Property lookup `transports[sessionId]`. -/
def rget (reg : Registry) (k : String) : Option TransportId :=
  (reg.find? (fun p => p.1 == k)).map (fun p => p.2)

/-- Property assignment `transports[newSessionId] = transport` (insert or overwrite). -/
def rput (reg : Registry) (k : String) (v : TransportId) : Registry :=
  (k, v) :: reg.filter (fun p => !(p.1 == k))

/-- Property deletion `delete transports[sessionId]`. -/
def rdel (reg : Registry) (k : String) : Registry :=
  reg.filter (fun p => !(p.1 == k))

/-- JS truthiness of the `string | undefined` header value: `undefined` and the
empty string are falsy. -/
def strTruthy : Option String → Bool
  | none => false
  | some s => !(s == "")

/-- The structured JSON-RPC error body sent by the POST rejection branch
(`res.status(400).json({...})`).  `idIsNull` records that the `id` field is the
JSON literal `null`. -/
structure JsonRpcErrorBody where
  jsonrpc : String
  code : Int
  message : String
  idIsNull : Bool
deriving DecidableEq, Repr

/-- The literal body built in the rejection branch of `app.post('/mcp')`. -/
def rejectionBody : JsonRpcErrorBody :=
  { jsonrpc := "2.0"
    code := -32000
    message := "錯誤請求：未提供有效的會話 ID"
    idIsNull := true }

/-- Outcome of one POST /mcp request: forward to an existing transport, forward
to a freshly created transport, or answer with an error response ourselves. -/
inductive PostOutcome where
  | forwardExisting (tid : TransportId)
  | forwardNew (tid : TransportId)
  | reject (status : Nat) (body : JsonRpcErrorBody)
deriving DecidableEq, Repr

/-- Whether a POST outcome is the rejection branch. -/
def PostOutcome.isReject : PostOutcome → Bool
  | .reject _ _ => true
  | _ => false

/-- Server state: the registry, a counter supplying identities for transport
objects, and the `sessionId` field of every transport object created so far
(`none` until the SDK confirms an id). -/
structure ServerState where
  registry : Registry
  nextTid : TransportId
  sessions : List (TransportId × Option String)
deriving DecidableEq, Repr

/-- The state at server startup: `const transports = {}` and no transports. -/
def initState : ServerState :=
  { registry := [], nextTid := 0, sessions := [] }

/-- Read `transport.sessionId` of transport `tid` (outer `none` = no such
transport object). -/
def getSession (ss : List (TransportId × Option String)) (tid : TransportId) :
    Option (Option String) :=
  (ss.find? (fun p => p.1 == tid)).map (fun p => p.2)

/-- Record the id the SDK assigned to `transport.sessionId`. -/
def setSession (ss : List (TransportId × Option String)) (tid : TransportId)
    (sid : String) : List (TransportId × Option String) :=
  ss.map (fun p => if p.1 == tid then (p.1, some sid) else p)

/-- The creation branch of the POST handler: construct a new
`StreamableHTTPServerTransport` (with `sessionId` still unset), connect it, and
forward the request to it.  The registry is not touched here: insertion happens
in `onSessionInitialized` when the transport confirms its id. -/
def createBranch (st : ServerState) : PostOutcome × ServerState :=
  (.forwardNew st.nextTid,
   { st with
       nextTid := st.nextTid + 1
       sessions := (st.nextTid, none) :: st.sessions })

/-- The `app.post('/mcp')` handler.  Mirrors the source's cascade:
`if (sessionId && transports[sessionId]) … else if (!sessionId &&
isInitializeRequest(req.body)) … else reject`. -/
def handlePost (st : ServerState) (header : Option String) (isInit : Bool) :
    PostOutcome × ServerState :=
  match header with
  | some sid =>
    if sid == "" then
      -- empty header string is falsy: `sessionId &&` fails, `!sessionId` holds
      if isInit then createBranch st else (.reject 400 rejectionBody, st)
    else
      match rget st.registry sid with
      | some tid => (.forwardExisting tid, st)
      | none =>
        -- header truthy, so `!sessionId` is false: always reject here
        (.reject 400 rejectionBody, st)
  | none =>
    if isInit then createBranch st else (.reject 400 rejectionBody, st)

/-- The `onsessioninitialized` callback of a created transport: the SDK has set
`transport.sessionId := newSessionId` and the callback stores
`transports[newSessionId] = transport`. -/
def onSessionInitialized (st : ServerState) (tid : TransportId) (sid : String) :
    ServerState :=
  { st with
      registry := rput st.registry sid tid
      sessions := setSession st.sessions tid sid }

/-- The `transport.onclose` handler:
`if (transport.sessionId) { delete transports[transport.sessionId] }`. -/
def onClose (st : ServerState) (tid : TransportId) : ServerState :=
  match getSession st.sessions tid with
  | some (some sid) =>
    if sid == "" then st else { st with registry := rdel st.registry sid }
  | _ => st

/-- The plain-text 400 body sent by the GET/DELETE handler (`res.status(400).send`). -/
def sessionErrorMsg : String := "無效或缺少會話 ID"

/-- Outcome of one GET or DELETE /mcp request. -/
inductive SessionOutcome where
  | delegated (tid : TransportId)
  | plainReject (status : Nat) (msg : String)
deriving DecidableEq, Repr

/-- The shared `handleSessionRequest` used for `app.get('/mcp')` and
`app.delete('/mcp')`: `if (!sessionId || !transports[sessionId]) { 400 } else
{ transports[sessionId].handleRequest(req, res) }`. -/
def handleSessionRequest (reg : Registry) (header : Option String) :
    SessionOutcome × Registry :=
  match header with
  | some sid =>
    if sid == "" then (.plainReject 400 sessionErrorMsg, reg)
    else
      match rget reg sid with
      | some tid => (.delegated tid, reg)
      | none => (.plainReject 400 sessionErrorMsg, reg)
  | none => (.plainReject 400 sessionErrorMsg, reg)

/-- One asynchronous event at the server: an inbound POST, the SDK confirming a
created transport's session id, or a transport signalling closure. -/
inductive Event where
  | post (header : Option String) (isInit : Bool)
  | confirm (tid : TransportId) (sid : String)
  | close (tid : TransportId)
deriving DecidableEq, Repr

/-- Whether an event is the id confirmation of transport `tid`. -/
def Event.isConfirmOf (tid : TransportId) : Event → Bool
  | .confirm t _ => t == tid
  | _ => false

/-- State transition of one event. -/
def step (st : ServerState) (e : Event) : ServerState :=
  match e with
  | .post h b => (handlePost st h b).2
  | .confirm tid sid => onSessionInitialized st tid sid
  | .close tid => onClose st tid

/-- Run a trace of events from a state. -/
def run (st : ServerState) (es : List Event) : ServerState :=
  es.foldl step st

/-! ### The health endpoint -/

/-- One entry of `os.networkInterfaces()[name]`. -/
structure NetIface where
  family : String
  internal : Bool
  address : String
deriving DecidableEq, Repr

/-- The host facts the handler reads from the runtime: `os.networkInterfaces()`
(keys in enumeration order), `os.hostname()`, and the string
`new Date().toISOString()` produces at handling time. -/
structure HostEnv where
  interfaces : List (String × List NetIface)
  hostname : String
  nowISO : String
deriving DecidableEq, Repr

/-- The address-collection loop of the health handler: for every interface name
in order, push the addresses of its non-internal IPv4 entries. -/
def collectAddresses (ifs : List (String × List NetIface)) : List String :=
  ifs.foldl
    (fun acc p =>
      acc ++ (p.2.filter (fun i => i.family == "IPv4" && !i.internal)).map
        (fun i => i.address))
    []

/-- The JSON body of the health response. -/
structure HealthBody where
  status : String
  serverTime : String
  networkAddresses : List String
  hostname : String
  port : Nat
deriving DecidableEq, Repr

/-- The `app.get('/health')` handler.  The registry is in scope in the source
closure, so it is passed here as well; the handler does not use it. -/
def handleHealth (env : HostEnv) (port : Nat) (reg : Registry) :
    Nat × HealthBody :=
  (200,
   { status := "ok"
     serverTime := env.nowISO
     networkAddresses := collectAddresses env.interfaces
     hostname := env.hostname
     port := port })

/-! ### Registry lemmas -/

theorem rget_rdel_self (reg : Registry) (k : String) : rget (rdel reg k) k = none := by
  induction reg with
  | nil => rfl
  | cons p reg ih =>
    simp only [rdel, rget, List.filter_cons] at *
    by_cases h : p.1 == k
    · simp [h, ih]
    · simp [h, List.find?_cons, ih]

theorem rdel_rdel (reg : Registry) (k : String) : rdel (rdel reg k) k = rdel reg k := by
  simp [rdel, List.filter_filter]

theorem rget_rput_self (reg : Registry) (k : String) (v : TransportId) :
    rget (rput reg k v) k = some v := by
  simp [rget, rput, List.find?_cons]

/-- `strTruthy` is false exactly for the two falsy header values. -/
theorem strTruthy_eq_false {hd : Option String} :
    strTruthy hd = false ↔ hd = none ∨ hd = some "" := by
  cases hd with
  | none => simp [strTruthy]
  | some s => simp [strTruthy]

/-- Every run of the POST handler lands in exactly one of the three branches of
the source's cascade, and only the creation branch changes the state. -/
theorem handlePost_cases (st : ServerState) (hd : Option String) (b : Bool) :
    handlePost st hd b = (PostOutcome.reject 400 rejectionBody, st) ∨
    (∃ tid, handlePost st hd b = (PostOutcome.forwardExisting tid, st)) ∨
    handlePost st hd b = createBranch st := by
  cases hd with
  | none => cases b <;> simp [handlePost]
  | some sid =>
    by_cases hs : sid == ""
    · cases b <;> simp [handlePost, hs]
    · cases hr : rget st.registry sid <;> simp [handlePost, hs, hr]

/-- The POST handler itself never changes the registry object: reuse and
rejection return the state untouched, and the creation branch defers insertion
to the `onsessioninitialized` callback. -/
theorem handlePost_registry (st : ServerState) (hd : Option String) (b : Bool) :
    (handlePost st hd b).2.registry = st.registry := by
  rcases handlePost_cases st hd b with h | ⟨tid, h⟩ | h <;> rw [h] <;> rfl

/-- The GET/DELETE handler returns the registry untouched in every case. -/
theorem handleSessionRequest_registry (reg : Registry) (hd : Option String) :
    (handleSessionRequest reg hd).2 = reg := by
  cases hd with
  | none => rfl
  | some sid =>
    by_cases hs : sid == ""
    · simp [handleSessionRequest, hs]
    · cases hr : rget reg sid <;> simp [handleSessionRequest, hs, hr]

/-! ### C1 — POST /mcp admission decision -/

/-- C1, counterexample: a POST whose `mcp-session-id` header is present with the
empty-string value, whose body is an initialization message, and whose session
id has no registry entry, is NOT rejected — the handler takes the creation
branch (`forwardNew`), because the source tests JS truthiness (`!sessionId`),
not header presence.  This falsifies "any other combination is rejected" for
the combination ⟨header present, no matching entry, initialization body⟩. -/
theorem post_admission_presence_counterexample :
    rget initState.registry "" = none ∧
    (handlePost initState (some "") true).1 = PostOutcome.forwardNew 0 ∧
    (handlePost initState (some "") true).1.isReject = false := by
  refine ⟨rfl, rfl, rfl⟩

/-- C1 (amended): the admission decision is evaluated in order with first match
winning — if the header is present with a non-empty value and the registry has
an entry for that id, that transport is reused and the request forwarded to it
with the state unchanged (no new entry); otherwise, if the header is absent or
empty and the body is an initialization message, the creation branch runs; any
other combination is rejected. -/
theorem post_admission_decision :
    (∀ (st : ServerState) (sid : String) (tid : TransportId) (b : Bool),
        sid ≠ "" → rget st.registry sid = some tid →
        handlePost st (some sid) b = (PostOutcome.forwardExisting tid, st)) ∧
    (∀ (st : ServerState) (hd : Option String),
        strTruthy hd = false →
        handlePost st hd true = createBranch st) ∧
    (∀ (st : ServerState) (sid : String) (b : Bool),
        sid ≠ "" → rget st.registry sid = none →
        handlePost st (some sid) b = (PostOutcome.reject 400 rejectionBody, st)) ∧
    (∀ (st : ServerState) (hd : Option String),
        strTruthy hd = false →
        handlePost st hd false = (PostOutcome.reject 400 rejectionBody, st)) := by
  refine ⟨?_, ?_, ?_, ?_⟩
  · intro st sid tid b hne hr
    simp [handlePost, hne, hr]
  · intro st hd hfalsy
    rcases strTruthy_eq_false.mp hfalsy with h | h <;> subst h <;> simp [handlePost]
  · intro st sid b hne hr
    simp [handlePost, hne, hr]
  · intro st hd hfalsy
    rcases strTruthy_eq_false.mp hfalsy with h | h <;> subst h <;> simp [handlePost]

/-- Concrete instantiation of every branch of the amended admission decision. -/
theorem post_admission_decision_attest :
    (("s" : String) ≠ "" ∧
      rget [("s", 7)] "s" = some 7 ∧
      handlePost { registry := [("s", 7)], nextTid := 3, sessions := [] }
          (some "s") false =
        (PostOutcome.forwardExisting 7,
         { registry := [("s", 7)], nextTid := 3, sessions := [] })) ∧
    (strTruthy none = false ∧
      handlePost { registry := [("s", 7)], nextTid := 3, sessions := [] } none true =
        createBranch { registry := [("s", 7)], nextTid := 3, sessions := [] }) ∧
    (("x" : String) ≠ "" ∧
      rget [("s", 7)] "x" = none ∧
      handlePost { registry := [("s", 7)], nextTid := 3, sessions := [] }
          (some "x") true =
        (PostOutcome.reject 400 rejectionBody,
         { registry := [("s", 7)], nextTid := 3, sessions := [] })) ∧
    (strTruthy (some "") = false ∧
      handlePost { registry := [("s", 7)], nextTid := 3, sessions := [] }
          (some "") false =
        (PostOutcome.reject 400 rejectionBody,
         { registry := [("s", 7)], nextTid := 3, sessions := [] })) :=
  ⟨⟨by decide, by decide,
      post_admission_decision.1 _ "s" 7 false (by decide) (by decide)⟩,
   ⟨by decide, post_admission_decision.2.1 _ none (by decide)⟩,
   ⟨by decide, by decide,
      post_admission_decision.2.2.1 _ "x" true (by decide) (by decide)⟩,
   ⟨by decide, post_admission_decision.2.2.2 _ (some "") (by decide)⟩⟩

/-! ### C2 — shape of the POST rejection response -/

/-- C2: whenever the POST handler takes the rejection branch, the response has
HTTP status 400 and the structured body with `jsonrpc = "2.0"`, error code
`-32000`, a string message and a null `id`; the handler returns with the state
untouched — in particular the request is not forwarded to any transport (the
outcome is `reject`, not one of the forwarding outcomes). -/
theorem post_rejection_response :
    ∀ (st : ServerState) (hd : Option String) (b : Bool) (s : Nat)
      (bd : JsonRpcErrorBody),
      (handlePost st hd b).1 = PostOutcome.reject s bd →
      s = 400 ∧ bd.jsonrpc = "2.0" ∧ bd.code = -32000 ∧ bd.idIsNull = true ∧
        (handlePost st hd b).2 = st := by
  intro st hd b s bd hrej
  rcases handlePost_cases st hd b with h | ⟨tid, h⟩ | h
  · rw [h] at hrej ⊢
    obtain ⟨hs, hbd⟩ := PostOutcome.reject.inj hrej
    subst hs; subst hbd
    exact ⟨rfl, rfl, rfl, rfl, rfl⟩
  · rw [h] at hrej; simp at hrej
  · rw [h] at hrej; simp [createBranch] at hrej

/-- Concrete instantiation of the POST rejection response shape. -/
theorem post_rejection_response_attest :
    (handlePost initState none false).1 = PostOutcome.reject 400 rejectionBody ∧
    (400 = 400 ∧ rejectionBody.jsonrpc = "2.0" ∧ rejectionBody.code = -32000 ∧
      rejectionBody.idIsNull = true ∧ (handlePost initState none false).2 = initState) :=
  ⟨by decide, post_rejection_response initState none false 400 rejectionBody (by decide)⟩

/-! ### C3 — rejections leave the registry untouched -/

/-- C3: every rejected request leaves the session registry exactly as it was —
the POST rejection branch returns the whole state unchanged, and the GET/DELETE
handler's plain-400 branch returns the registry unchanged. -/
theorem rejected_request_frame :
    (∀ (st : ServerState) (hd : Option String) (b : Bool) (s : Nat)
        (bd : JsonRpcErrorBody),
        (handlePost st hd b).1 = PostOutcome.reject s bd →
        (handlePost st hd b).2 = st) ∧
    (∀ (reg : Registry) (hd : Option String) (s : Nat) (m : String),
        (handleSessionRequest reg hd).1 = SessionOutcome.plainReject s m →
        (handleSessionRequest reg hd).2 = reg) := by
  constructor
  · intro st hd b s bd hrej
    exact (post_rejection_response st hd b s bd hrej).2.2.2.2
  · intro reg hd s m _
    exact handleSessionRequest_registry reg hd

/-- Concrete instantiation of the rejection frame property. -/
theorem rejected_request_frame_attest :
    ((handlePost initState none false).1 = PostOutcome.reject 400 rejectionBody ∧
      (handlePost initState none false).2 = initState) ∧
    ((handleSessionRequest [] none).1 = SessionOutcome.plainReject 400 sessionErrorMsg ∧
      (handleSessionRequest [] none).2 = []) :=
  ⟨⟨by decide,
     rejected_request_frame.1 initState none false 400 rejectionBody (by decide)⟩,
   ⟨by decide,
     rejected_request_frame.2 [] none 400 sessionErrorMsg (by decide)⟩⟩

/-! ### C4 — GET/DELETE use only the lookup branch -/

/-- C4: on GET and DELETE, only the lookup branch applies.  Under the
reachable-state assumption that no session is registered under the empty
string (session ids come from `randomUUID`, which never returns `""`): a
present-and-matching header delegates to the stored transport; a header with no
matching entry, and an absent header, get a plain 400 with the fixed text
message and no structured JSON body; and the registry is returned unchanged in
all cases, so no transport is ever created on these verbs. -/
theorem session_request_lookup_only :
    ∀ (reg : Registry) (hd : Option String),
      rget reg "" = none →
      (∀ sid tid, hd = some sid → rget reg sid = some tid →
          handleSessionRequest reg hd = (SessionOutcome.delegated tid, reg)) ∧
      (∀ sid, hd = some sid → rget reg sid = none →
          handleSessionRequest reg hd =
            (SessionOutcome.plainReject 400 sessionErrorMsg, reg)) ∧
      (hd = none →
          handleSessionRequest reg hd =
            (SessionOutcome.plainReject 400 sessionErrorMsg, reg)) ∧
      (handleSessionRequest reg hd).2 = reg := by
  intro reg hd hempty
  refine ⟨?_, ?_, ?_, handleSessionRequest_registry reg hd⟩
  · intro sid tid hhd hr
    subst hhd
    by_cases hs : sid = ""
    · subst hs; rw [hempty] at hr; cases hr
    · simp [handleSessionRequest, hs, hr]
  · intro sid hhd hr
    subst hhd
    by_cases hs : sid = ""
    · simp [handleSessionRequest, hs]
    · simp [handleSessionRequest, hs, hr]
  · intro hhd
    subst hhd
    rfl

/-- Concrete instantiation of the GET/DELETE lookup-only behavior. -/
theorem session_request_lookup_only_attest :
    rget [("s", 7)] "" = none ∧
    handleSessionRequest [("s", 7)] (some "s") =
      (SessionOutcome.delegated 7, [("s", 7)]) ∧
    handleSessionRequest [("s", 7)] (some "x") =
      (SessionOutcome.plainReject 400 sessionErrorMsg, [("s", 7)]) ∧
    handleSessionRequest [("s", 7)] none =
      (SessionOutcome.plainReject 400 sessionErrorMsg, [("s", 7)]) :=
  ⟨by decide,
   (session_request_lookup_only [("s", 7)] (some "s") (by decide)).1 "s" 7 rfl (by decide),
   (session_request_lookup_only [("s", 7)] (some "x") (by decide)).2.1 "x" rfl (by decide),
   (session_request_lookup_only [("s", 7)] none (by decide)).2.2.1 rfl⟩

/-! ### C9 — empty header value behaves as an absent header -/

/-- C9: an `mcp-session-id` header whose value is the empty string is treated
by every /mcp handler exactly as an absent header: the POST handler computes
the same outcome and state for `some ""` as for `none` (so an initialization
body takes the creation branch), and the GET/DELETE handler answers the plain
400. -/
theorem empty_header_treated_as_absent :
    (∀ (st : ServerState) (b : Bool),
        handlePost st (some "") b = handlePost st none b) ∧
    (∀ (st : ServerState),
        (handlePost st (some "") true).1 = PostOutcome.forwardNew st.nextTid) ∧
    (∀ (reg : Registry),
        handleSessionRequest reg (some "") =
          (SessionOutcome.plainReject 400 sessionErrorMsg, reg)) := by
  refine ⟨?_, ?_, ?_⟩
  · intro st b
    cases b <;> rfl
  · intro st
    rfl
  · intro reg
    rfl

/-! ### Close-handler lemmas -/

/-- The close handler either leaves the registry alone (no confirmed id) or
deletes exactly the transport's own session id. -/
theorem onClose_registry_cases (st : ServerState) (t : TransportId) :
    (onClose st t).registry = st.registry ∨
    ∃ s, (onClose st t).registry = rdel st.registry s := by
  rcases hg : getSession st.sessions t with _ | o
  · left; simp [onClose, hg]
  · rcases o with _ | s
    · left; simp [onClose, hg]
    · by_cases hs : s == ""
      · left; simp [onClose, hg, hs]
      · right; exact ⟨s, by simp [onClose, hg, hs]⟩

/-- The close handler never touches the `sessions` bookkeeping, only the
registry. -/
theorem onClose_sessions (st : ServerState) (t : TransportId) :
    (onClose st t).sessions = st.sessions := by
  rcases hg : getSession st.sessions t with _ | o
  · simp [onClose, hg]
  · rcases o with _ | s
    · simp [onClose, hg]
    · by_cases hs : s == "" <;> simp [onClose, hg, hs]

/-! ### C5 — eviction on close, idempotently -/

/-- C5: after a transport with confirmed (necessarily non-empty) session id
signals closure, a registry lookup for that id returns absent; and running the
close handling a second time for the same transport changes nothing — removal
of an already-absent id is a no-op. -/
theorem close_evicts_and_idempotent :
    (∀ (st : ServerState) (tid : TransportId) (sid : String),
        getSession st.sessions tid = some (some sid) → sid ≠ "" →
        rget (onClose st tid).registry sid = none) ∧
    (∀ (st : ServerState) (tid : TransportId),
        onClose (onClose st tid) tid = onClose st tid) := by
  constructor
  · intro st tid sid hg hne
    have hs : (sid == "") = false := by simp [hne]
    simp [onClose, hg, hs, rget_rdel_self]
  · intro st tid
    rcases hg : getSession st.sessions tid with _ | o
    · simp [onClose, hg]
    · rcases o with _ | sid
      · simp [onClose, hg]
      · by_cases hs : sid == ""
        · simp [onClose, hg, hs]
        · have h1 : onClose st tid = { st with registry := rdel st.registry sid } := by
            simp [onClose, hg, hs]
          rw [h1]
          have hg2 : getSession
              ({ st with registry := rdel st.registry sid } : ServerState).sessions tid =
              some (some sid) := hg
          simp [onClose, hg2, hs, rdel_rdel]

/-- Concrete instantiation of eviction on close. -/
theorem close_evicts_attest :
    getSession [(0, some "a")] 0 = some (some "a") ∧ ("a" : String) ≠ "" ∧
    rget (onClose { registry := [("a", 0)], nextTid := 1, sessions := [(0, some "a")] }
        0).registry "a" = none :=
  ⟨by decide, by decide,
   close_evicts_and_idempotent.1
     { registry := [("a", 0)], nextTid := 1, sessions := [(0, some "a")] }
     0 "a" (by decide) (by decide)⟩

/-! ### C8 — closing an unconfirmed transport is a pure no-op -/

/-- C8: if a created transport closes while its session id is still unset
(`transport.sessionId` is `undefined`), the close handler leaves the whole
state — in particular every existing registry entry — unchanged. -/
theorem unconfirmed_close_no_effect :
    ∀ (st : ServerState) (tid : TransportId),
      getSession st.sessions tid = some none → onClose st tid = st := by
  intro st tid h
  simp [onClose, h]

/-- Concrete instantiation: closing the unconfirmed transport 0 leaves a
registry holding an unrelated session untouched. -/
theorem unconfirmed_close_no_effect_attest :
    getSession [(0, (none : Option String))] 0 = some none ∧
    onClose { registry := [("k", 9)], nextTid := 1, sessions := [(0, none)] } 0 =
      { registry := [("k", 9)], nextTid := 1, sessions := [(0, none)] } :=
  ⟨by decide, unconfirmed_close_no_effect _ 0 (by decide)⟩

/-! ### Trace invariants -/

/-- If no event of a trace confirms transport `tid`, and no registry entry
points at `tid` initially, then no registry entry points at `tid` after the
trace. -/
theorem run_values_avoid (tid : TransportId) :
    ∀ (es : List Event) (st : ServerState),
      (∀ p ∈ st.registry, p.2 ≠ tid) →
      es.all (fun e => !(e.isConfirmOf tid)) = true →
      ∀ p ∈ (run st es).registry, p.2 ≠ tid := by
  intro es
  induction es with
  | nil => intro st hst _; simpa [run] using hst
  | cons e es ih =>
    intro st hst hall
    simp only [List.all_cons, Bool.and_eq_true] at hall
    obtain ⟨he, hes⟩ := hall
    have hstep : ∀ p ∈ (step st e).registry, p.2 ≠ tid := by
      cases e with
      | post hd b =>
        intro p hp
        have hreg : (step st (Event.post hd b)).registry = st.registry :=
          handlePost_registry st hd b
        rw [hreg] at hp
        exact hst p hp
      | confirm t s =>
        have hne : t ≠ tid := by
          simpa [Event.isConfirmOf] using he
        intro p hp
        have hp2 : p ∈ (s, t) :: List.filter (fun q => !(q.1 == s)) st.registry := hp
        rcases List.mem_cons.mp hp2 with rfl | hmem
        · exact hne
        · exact hst p (List.mem_of_mem_filter hmem)
      | close t =>
        intro p hp
        rcases onClose_registry_cases st t with hcase | ⟨s, hcase⟩
        · rw [show (step st (Event.close t)).registry = (onClose st t).registry from rfl,
            hcase] at hp
          exact hst p hp
        · rw [show (step st (Event.close t)).registry = (onClose st t).registry from rfl,
            hcase] at hp
          exact hst p (List.mem_of_mem_filter hp)
    exact ih (step st e) hstep hes

/-- Every registry entry after a trace either was confirmed by some event of
the trace or descends from an entry of the starting registry. -/
theorem run_keys_from_confirms :
    ∀ (es : List Event) (st : ServerState) (p : String × TransportId),
      p ∈ (run st es).registry →
      (∃ tid, Event.confirm tid p.1 ∈ es) ∨ (∃ q ∈ st.registry, q.1 = p.1) := by
  intro es
  induction es with
  | nil =>
    intro st p hp
    right
    exact ⟨p, by simpa [run] using hp, rfl⟩
  | cons e es ih =>
    intro st p hp
    have hp2 : p ∈ (run (step st e) es).registry := hp
    rcases ih (step st e) p hp2 with ⟨tid, htid⟩ | ⟨q, hq, hqe⟩
    · exact Or.inl ⟨tid, List.mem_cons_of_mem _ htid⟩
    · cases e with
      | post hd b =>
        right
        have hreg : (step st (Event.post hd b)).registry = st.registry :=
          handlePost_registry st hd b
        rw [hreg] at hq
        exact ⟨q, hq, hqe⟩
      | confirm t s =>
        have hq2 : q ∈ (s, t) :: List.filter (fun r => !(r.1 == s)) st.registry := hq
        rcases List.mem_cons.mp hq2 with rfl | hmem
        · left
          refine ⟨t, ?_⟩
          have : p.1 = s := hqe.symm
          rw [this]
          exact List.mem_cons_self _ _
        · right
          exact ⟨q, List.mem_of_mem_filter hmem, hqe⟩
      | close t =>
        right
        rcases onClose_registry_cases st t with hcase | ⟨s, hcase⟩
        · rw [show (step st (Event.close t)).registry = (onClose st t).registry from rfl,
            hcase] at hq
          exact ⟨q, hq, hqe⟩
        · rw [show (step st (Event.close t)).registry = (onClose st t).registry from rfl,
            hcase] at hq
          exact ⟨q, List.mem_of_mem_filter hq, hqe⟩

/-- Filtering an association list keeps its key list duplicate-free. -/
theorem keys_nodup_filter (f : String × TransportId → Bool) {l : Registry}
    (h : (l.map Prod.fst).Nodup) : ((l.filter f).map Prod.fst).Nodup :=
  h.sublist ((l.filter_sublist).map Prod.fst)

/-- Every event preserves duplicate-freedom of the registry's key list. -/
theorem step_keys_nodup (st : ServerState) (e : Event)
    (h : (st.registry.map Prod.fst).Nodup) :
    ((step st e).registry.map Prod.fst).Nodup := by
  cases e with
  | post hd b =>
    rw [show (step st (Event.post hd b)).registry = st.registry from
      handlePost_registry st hd b]
    exact h
  | confirm t s =>
    show (((s, t) :: List.filter (fun q => !(q.1 == s)) st.registry).map Prod.fst).Nodup
    rw [List.map_cons]
    refine List.nodup_cons.mpr ⟨?_, keys_nodup_filter _ h⟩
    intro hmem
    rcases List.mem_map.mp hmem with ⟨q, hq, hq1⟩
    have := (List.mem_filter.mp hq).2
    rw [hq1] at this
    simp at this
  | close t =>
    rcases onClose_registry_cases st t with hcase | ⟨s, hcase⟩
    · rw [show (step st (Event.close t)).registry = (onClose st t).registry from rfl, hcase]
      exact h
    · rw [show (step st (Event.close t)).registry = (onClose st t).registry from rfl, hcase]
      exact keys_nodup_filter _ h

/-! ### C6 — entries appear only on confirmation -/

/-- C6: two-phase registration.  The POST handler itself never inserts into the
registry (in particular the creation branch does not); the confirmation
callback stores the transport under exactly the id it was called with; and over
any trace of events in which transport `tid` is never confirmed, no lookup ever
yields `tid`. -/
theorem entry_inserted_only_on_confirmation :
    (∀ (st : ServerState) (hd : Option String) (b : Bool),
        (handlePost st hd b).2.registry = st.registry) ∧
    (∀ (st : ServerState) (tid : TransportId) (sid : String),
        rget (onSessionInitialized st tid sid).registry sid = some tid) ∧
    (∀ (es : List Event) (tid : TransportId),
        es.all (fun e => !(e.isConfirmOf tid)) = true →
        ∀ sid, rget (run initState es).registry sid ≠ some tid) := by
  refine ⟨handlePost_registry, ?_, ?_⟩
  · intro st tid sid
    exact rget_rput_self st.registry sid tid
  · intro es tid hall sid hsome
    have hinv : ∀ p ∈ (run initState es).registry, p.2 ≠ tid :=
      run_values_avoid tid es initState (by intro p hp; simp [initState] at hp) hall
    unfold rget at hsome
    rcases Option.map_eq_some'.mp hsome with ⟨pr, hfind, hval⟩
    exact hinv pr (List.mem_of_find?_eq_some hfind) hval

/-- Concrete instantiation: after a trace holding a single creation (and no
confirmation), the registry has no entry for the created transport. -/
theorem entry_inserted_only_on_confirmation_attest :
    [Event.post none true].all (fun e => !(e.isConfirmOf 0)) = true ∧
    rget (run initState [Event.post none true]).registry "a" ≠ some 0 :=
  ⟨by decide,
   entry_inserted_only_on_confirmation.2.2 [Event.post none true] 0 (by decide) "a"⟩

/-! ### C7 — keys are unique and system-generated -/

/-- C7: over any trace of events from startup, the registry's key list is
duplicate-free — each session id maps to at most one live transport — and
every key present in the registry was supplied by some confirmation event
(the callback carrying the system-generated id), never taken from a client
request. -/
theorem registry_keys_unique_and_generated :
    ∀ (es : List Event),
      ((run initState es).registry.map Prod.fst).Nodup ∧
      (∀ p ∈ (run initState es).registry, ∃ tid, Event.confirm tid p.1 ∈ es) := by
  intro es
  constructor
  · have hgen : ∀ (es' : List Event) (st : ServerState),
        (st.registry.map Prod.fst).Nodup →
        ((run st es').registry.map Prod.fst).Nodup := by
      intro es'
      induction es' with
      | nil => intro st h; simpa [run] using h
      | cons e es' ih => intro st h; exact ih (step st e) (step_keys_nodup st e h)
    exact hgen es initState (by simp [initState])
  · intro p hp
    rcases run_keys_from_confirms es initState p hp with h | ⟨q, hq, _⟩
    · exact h
    · simp [initState] at hq

/-- Concrete instantiation: the key stored by a confirmation event is the id
that event carried. -/
theorem registry_keys_unique_and_generated_attest :
    ("abc", 5) ∈ (run initState [Event.confirm 5 "abc"]).registry ∧
    (∃ tid, Event.confirm tid ("abc", 5).1 ∈ [Event.confirm 5 "abc"]) :=
  ⟨by decide,
   (registry_keys_unique_and_generated [Event.confirm 5 "abc"]).2 ("abc", 5) (by decide)⟩

/-! ### C10 — the health endpoint -/

/-- Accumulating a fold of appends is the appended concatenation. -/
theorem foldl_append_eq {α β : Type} (g : α → List β) :
    ∀ (l : List α) (acc : List β),
      l.foldl (fun a p => a ++ g p) acc = acc ++ l.flatMap g := by
  intro l
  induction l with
  | nil => intro acc; simp
  | cons p l ih => intro acc; simp [List.foldl_cons, ih]

/-- The collected addresses are exactly the addresses of the non-internal IPv4
entries over all interfaces. -/
theorem collectAddresses_mem (ifs : List (String × List NetIface)) (a : String) :
    a ∈ collectAddresses ifs ↔
      ∃ pr ∈ ifs, ∃ i ∈ pr.2,
        i.family = "IPv4" ∧ i.internal = false ∧ i.address = a := by
  unfold collectAddresses
  rw [foldl_append_eq]
  simp only [List.nil_append, List.mem_flatMap, List.mem_map, List.mem_filter,
    Bool.and_eq_true, Bool.not_eq_true', beq_iff_eq]
  constructor
  · rintro ⟨pr, hpr, i, ⟨hi, hfam, hint⟩, haddr⟩
    exact ⟨pr, hpr, i, hi, hfam, hint, haddr⟩
  · rintro ⟨pr, hpr, i, hi, hfam, hint, haddr⟩
    exact ⟨pr, hpr, i, ⟨hi, hfam, hint⟩, haddr⟩

/-- C10: every GET /health request returns HTTP 200 with a body carrying the
`"ok"` status, the server timestamp string produced at handling time, the
addresses of exactly the non-internal IPv4 interface entries, the hostname and
the configured port — and the response is the same whatever the session
registry holds, so the handler neither reads nor mutates it. -/
theorem health_response :
    ∀ (env : HostEnv) (port : Nat) (reg other : Registry),
      (handleHealth env port reg).1 = 200 ∧
      (handleHealth env port reg).2.status = "ok" ∧
      (handleHealth env port reg).2.serverTime = env.nowISO ∧
      (handleHealth env port reg).2.hostname = env.hostname ∧
      (handleHealth env port reg).2.port = port ∧
      (∀ a, a ∈ (handleHealth env port reg).2.networkAddresses ↔
          ∃ pr ∈ env.interfaces, ∃ i ∈ pr.2,
            i.family = "IPv4" ∧ i.internal = false ∧ i.address = a) ∧
      handleHealth env port reg = handleHealth env port other := by
  intro env port reg other
  exact ⟨rfl, rfl, rfl, rfl, rfl, fun a => collectAddresses_mem env.interfaces a, rfl⟩
